import Mathlib

/-!
Shallow embedding of the coordinated multi-phase rendering scheduler of
`src/vs/editor/browser/view.ts`: the process-wide `EditorRenderingCoordinator`
singleton and the per-instance `View` rendering orchestration
(`_scheduleRender`, `_flushAccumulatedAndRenderNow`, `_createCoordinatedRendering`,
`render`, `safeInvokeNoArg`).

Modelling conventions:
* Windows and participant identities are `Nat`.  Object identity of the
  participant records pushed onto `_coordinatedRenderings` is modelled by
  structural equality of `Rendering` values (each `scheduleCoordinatedRendering`
  call in the source pushes a fresh closure record, so values are distinct in
  every reachable run).
* Each phase call of a participant is synchronous and atomic; a call is one
  event in the trace, so "call A completes before call B begins" is "A's event
  precedes B's event".
* Exceptions are modelled as outcome data (`…Throws` flags, `TextOutcome`).
  `safeInvokeNoArg` of the source catches the exception, reports it to the
  process-wide error sink (`onUnexpectedError`) and yields `null`; in the
  model the catch produces an `errorReport` trace event and an empty result.
* What a participant's phases do internally is opaque to the coordinator, so
  at the coordinator level a participant carries its phase outcomes as data
  (`RBehavior`).  The `View`'s own participant implementation is embedded
  separately below (`ViewState`, `viewRenderText`, `runPhases34`, …).
-/

/-- Result of a successful `renderText` phase: the view-part list and rendering
context (`[ViewPart[], RenderingContext]` in the source).  View parts are
identified by `Nat`; the context is an opaque tag. -/
structure RData where
  viewParts : List Nat
  ctx : Nat
deriving DecidableEq, Repr

/-- Outcome of a participant's `renderText()` call: it may throw, return
`null`, or return data. -/
inductive TextOutcome where
  | throws : TextOutcome
  | nullResult : TextOutcome
  | data : RData → TextOutcome
deriving DecidableEq, Repr

/-- Coordinator-level behaviour of one participant's four phase callbacks.
`prepareRenderText` and the two later phases either complete or throw;
`renderText` additionally may return `null`. -/
structure RBehavior where
  prepareRenderTextThrows : Bool
  renderTextOutcome : TextOutcome
  prepareRenderThrows : Bool
  renderThrows : Bool
deriving DecidableEq, Repr

/-- One `ICoordinatedRendering` record registered with the coordinator:
an identity, the window it belongs to, and its phase behaviour. -/
structure Rendering where
  id : Nat
  window : Nat
  behavior : RBehavior
deriving DecidableEq, Repr

/-- Trace events of a coordinator frame callback.  The four call constructors
record a phase call of a participant (`prepareRender`/`render` also record the
argument list and context); `errorReport` records `onUnexpectedError` being
invoked by `safeInvokeNoArg` for a participant's call in phase `phase`
(0 = prepareRenderText, 1 = renderText, 2 = prepareRender, 3 = render). -/
inductive CEvent where
  | prepareRenderText : Nat → CEvent
  | renderText : Nat → CEvent
  | prepareRender : Nat → List Nat → Nat → CEvent
  | render : Nat → List Nat → Nat → CEvent
  | errorReport : Nat → Nat → CEvent
deriving DecidableEq, Repr

/-- State of the `EditorRenderingCoordinator` singleton: the (global) list of
pending coordinated renderings in registration order, and the set of windows
currently holding an outstanding animation-frame runner (the keys of the
`_animationFrameRunners` map). -/
structure EditorRenderingCoordinator where
  coordinatedRenderings : List Rendering
  animationFrameRunners : List Nat
deriving DecidableEq, Repr

namespace EditorRenderingCoordinator

/-- The coordinator at process start: nothing pending, no runners. -/
def initial : EditorRenderingCoordinator := ⟨[], []⟩

/-- `EditorRenderingCoordinator._scheduleRender(window)`: register an
animation-frame runner for `w` unless one is already outstanding. -/
def scheduleRenderFor (c : EditorRenderingCoordinator) (w : Nat) :
    EditorRenderingCoordinator :=
  if w ∈ c.animationFrameRunners then c
  else { c with animationFrameRunners := c.animationFrameRunners ++ [w] }

/-- `scheduleCoordinatedRendering(rendering)`: push the rendering onto the
pending list and ensure a frame runner exists for its window. -/
def scheduleCoordinatedRendering (c : EditorRenderingCoordinator)
    (r : Rendering) : EditorRenderingCoordinator :=
  scheduleRenderFor
    { c with coordinatedRenderings := c.coordinatedRenderings ++ [r] }
    r.window

/-- The `dispose` of the handle returned by `scheduleCoordinatedRendering`:
if the rendering is still pending, splice it out (first occurrence, as
`indexOf`/`splice` do); if the pending list then became empty, dispose every
animation-frame runner and clear the map. -/
def disposeHandle (c : EditorRenderingCoordinator) (r : Rendering) :
    EditorRenderingCoordinator :=
  if r ∈ c.coordinatedRenderings then
    let rest := c.coordinatedRenderings.erase r
    if rest.isEmpty then ⟨rest, []⟩
    else { c with coordinatedRenderings := rest }
  else c

/-- The phase-2 data of a participant as the coordinator sees it after
`safeInvokeNoArg`: `none` when `renderText` threw or returned `null`. -/
def dataOf (r : Rendering) : Option RData :=
  match r.behavior.renderTextOutcome with
  | .data d => some d
  | _ => none

/-- Trace of the first loop of `_onRenderScheduled`:
`safeInvokeNoArg(() => rendering.prepareRenderText())` for every pending
rendering, in registration order. -/
def phase1Events (batch : List Rendering) : List CEvent :=
  batch.flatMap fun r =>
    CEvent.prepareRenderText r.id ::
      (if r.behavior.prepareRenderTextThrows then [CEvent.errorReport r.id 0] else [])

/-- Trace of the second loop of `_onRenderScheduled`:
`datas[i] = safeInvokeNoArg(() => rendering.renderText())`. -/
def phase2Events (batch : List Rendering) : List CEvent :=
  batch.flatMap fun r =>
    CEvent.renderText r.id ::
      (if r.behavior.renderTextOutcome = TextOutcome.throws then [CEvent.errorReport r.id 1] else [])

/-- Trace of the third loop of `_onRenderScheduled`: for every rendering whose
`datas[i]` is non-null, `safeInvokeNoArg(() => rendering.prepareRender(viewParts, ctx))`. -/
def phase3Events (batch : List Rendering) : List CEvent :=
  batch.flatMap fun r =>
    match dataOf r with
    | none => []
    | some d =>
        CEvent.prepareRender r.id d.viewParts d.ctx ::
          (if r.behavior.prepareRenderThrows then [CEvent.errorReport r.id 2] else [])

/-- Trace of the fourth loop of `_onRenderScheduled`: for every rendering whose
`datas[i]` is non-null, `safeInvokeNoArg(() => rendering.render(viewParts, ctx))`. -/
def phase4Events (batch : List Rendering) : List CEvent :=
  batch.flatMap fun r =>
    match dataOf r with
    | none => []
    | some d =>
        CEvent.render r.id d.viewParts d.ctx ::
          (if r.behavior.renderThrows then [CEvent.errorReport r.id 3] else [])

/-- `_onRenderScheduled()`: snapshot the pending list (`slice(0)`), reset it to
empty, and run the four phase loops over the snapshot.  `during` is the list of
`scheduleCoordinatedRendering` calls issued while the callback body itself is
executing: in the source they mutate the (already emptied) pending list and the
runner map, and never the snapshot, so folding them over the emptied state is
exact. -/
def onRenderScheduled (c : EditorRenderingCoordinator)
    (during : List Rendering) : EditorRenderingCoordinator × List CEvent :=
  let batch := c.coordinatedRenderings
  let c1 : EditorRenderingCoordinator := { c with coordinatedRenderings := [] }
  let c2 := during.foldl scheduleCoordinatedRendering c1
  (c2, phase1Events batch ++ phase2Events batch ++ phase3Events batch ++ phase4Events batch)

/-- The animation-frame runner installed by `_scheduleRender(window)` firing
for window `w`: it first deletes its own entry from `_animationFrameRunners`,
then calls `_onRenderScheduled()`. -/
def fireFrame (c : EditorRenderingCoordinator) (w : Nat)
    (during : List Rendering) : EditorRenderingCoordinator × List CEvent :=
  onRenderScheduled
    { c with animationFrameRunners := c.animationFrameRunners.erase w } during

end EditorRenderingCoordinator

/-- The phase number and participant id of a phase-call event (`none` for
error reports). -/
def callPhase : CEvent → Option (Nat × Nat)
  | .prepareRenderText i => some (0, i)
  | .renderText i => some (1, i)
  | .prepareRender i _ _ => some (2, i)
  | .render i _ _ => some (3, i)
  | .errorReport _ _ => none

/-- The sequence of phase numbers of the successive phase calls in a trace. -/
def phaseSeq (tr : List CEvent) : List Nat :=
  tr.filterMap fun e => (callPhase e).map Prod.fst

/-- The participant ids receiving a phase-`p` call, in trace order. -/
def phaseCalls (tr : List CEvent) (p : Nat) : List Nat :=
  tr.filterMap fun e =>
    match callPhase e with
    | some (q, i) => if q = p then some i else none
    | none => none

/-- The participants processed by a frame callback: those receiving a
`prepareRenderText` call (every participant of the snapshot gets one). -/
def processedIds (tr : List CEvent) : List Nat := phaseCalls tr 0

/-- One step of a client interaction with the coordinator: a
`scheduleCoordinatedRendering` call or the disposal of a previously returned
cancellation handle. -/
inductive CoordOp where
  | schedule : Rendering → CoordOp
  | disposeOf : Rendering → CoordOp
deriving DecidableEq, Repr

/-- Apply one client operation to the coordinator state. -/
def applyOp (c : EditorRenderingCoordinator) : CoordOp → EditorRenderingCoordinator
  | .schedule r => c.scheduleCoordinatedRendering r
  | .disposeOf r => c.disposeHandle r

/-- Apply a sequence of client operations, oldest first. -/
def applyOps (c : EditorRenderingCoordinator) (ops : List CoordOp) :
    EditorRenderingCoordinator :=
  ops.foldl applyOp c

/-- Coordinator handle/pending-set invariant that actually holds across
schedule/dispose sequences: each window has at most one outstanding runner;
when the global pending list is empty no runner is outstanding; and every
pending rendering's window has an outstanding runner. -/
def CoordInv (c : EditorRenderingCoordinator) : Prop :=
  c.animationFrameRunners.Nodup ∧
  (c.coordinatedRenderings = [] → c.animationFrameRunners = []) ∧
  (∀ r ∈ c.coordinatedRenderings, r.window ∈ c.animationFrameRunners)

/-- Events of phases 2–4 attributable to participant `i`: a `renderText`-phase
error report, or any `prepareRender`/`render` call or error report for `i`. -/
def lateEventsFor (i : Nat) (tr : List CEvent) : List CEvent :=
  tr.filter fun e =>
    match e with
    | .prepareRender j _ _ => j == i
    | .render j _ _ => j == i
    | .errorReport j ph => j == i && ph != 0
    | _ => false

/-!  The `View`'s own rendering participant, from `View._createCoordinatedRendering`,
`View._scheduleRender`, `View._flushAccumulatedAndRenderNow` and `View.render`.

The concrete `ViewPart` implementations, `ViewLines`, the viewport computation
and the `RenderingContext` construction live outside `view.ts` and are
abstracted: a view part carries a dirty flag (`shouldRender()`), and flags
saying whether its `prepareRender`/`render` call throws; the text subsystem
carries its own dirty flag, and the effect of `viewLines.renderText` on the
other parts' dirty state (scroll events fired during text layout can mark
parts dirty) is the id set `textRenderDirties`. -/

/-- Abstract `ViewPart` as seen by `view.ts`. -/
structure VPart where
  id : Nat
  shouldRenderFlag : Bool
  prepareRenderThrows : Bool
  renderThrows : Bool
deriving DecidableEq, Repr

/-- The `View` state relevant to rendering orchestration. -/
structure ViewState where
  disposed : Bool
  renderAnimationFrame : Option Nat
  domNodeConnected : Bool
  viewLinesShould : Bool
  viewParts : List VPart
  textRenderDirties : List Nat
  shouldRecomputeGlyphMarginLanes : Bool
deriving DecidableEq, Repr

/-- Trace events of the `View`-level phases.  The two first constructors mark
the participant-level `prepareRenderText`/`renderText` calls; the call
constructors record individual `ViewPart` method invocations; `errorReport`
records `onUnexpectedError` being reached by `safeInvokeNoArg`. -/
inductive VEvent where
  | prepareRenderTextPhase : VEvent
  | renderTextPhase : VEvent
  | prepareRenderCall : Nat → VEvent
  | renderCall : Nat → VEvent
  | onDidRenderCall : Nat → VEvent
  | errorReport : VEvent
deriving DecidableEq, Repr

/-- `View._getViewPartsToRender()`: the parts whose `shouldRender()` is true,
in `_viewParts` order. -/
def getViewPartsToRender (ps : List VPart) : List VPart :=
  ps.filter fun p => p.shouldRenderFlag

/-- Effect of `this._viewLines.renderText(viewportData)` on the parts' dirty
flags: the scroll events it may fire mark the parts in `textRenderDirties`
dirty (external to `view.ts`; parametrised by that id set). -/
def applyTextDirties (v : ViewState) : List VPart :=
  v.viewParts.map fun p =>
    if p.id ∈ v.textRenderDirties then { p with shouldRenderFlag := true } else p

/-- The `renderText` phase of `View._createCoordinatedRendering`: `null` when
the root dom node is not connected; `null` when neither the text subsystem nor
any part needs rendering; otherwise the part list — recomputed after
`viewLines.renderText` when the text subsystem rendered (the viewport
computation, `ViewportData` and `RenderingContext` construction, and
`contentWidgets.onBeforeRender` mutate nothing this model tracks). -/
def viewRenderText (v : ViewState) : Option (List VPart) :=
  if v.domNodeConnected = false then none
  else
    let toRender := getViewPartsToRender v.viewParts
    if v.viewLinesShould = false ∧ toRender = [] then none
    else if v.viewLinesShould then some (getViewPartsToRender (applyTextDirties v))
    else some toRender

/-- The `prepareRender` phase of `View._createCoordinatedRendering`:
`for (const viewPart of viewPartsToRender) viewPart.prepareRender(ctx)` with
no per-part catch — a throwing part ends the loop, and the Bool records that
the phase threw. -/
def prepareRenderPhase : List VPart → List VEvent × Bool
  | [] => ([], false)
  | p :: rest =>
    if p.prepareRenderThrows then ([VEvent.prepareRenderCall p.id], true)
    else
      let t := prepareRenderPhase rest
      (VEvent.prepareRenderCall p.id :: t.1, t.2)

/-- The `render` phase of `View._createCoordinatedRendering`:
`for (const viewPart of viewPartsToRender) { viewPart.render(ctx); viewPart.onDidRender(); }`
with no per-part catch. -/
def renderPhase : List VPart → List VEvent × Bool
  | [] => ([], false)
  | p :: rest =>
    if p.renderThrows then ([VEvent.renderCall p.id], true)
    else
      let t := renderPhase rest
      (VEvent.renderCall p.id :: VEvent.onDidRenderCall p.id :: t.1, t.2)

/-- Phases 3 and 4 as driven by either call site
(`safeInvokeNoArg(() => rendering.prepareRender(...)); safeInvokeNoArg(() => rendering.render(...))`
in `_flushAccumulatedAndRenderNow` and in `_onRenderScheduled`): each phase's
exception, if any, is caught after the phase and reported once. -/
def runPhases34 (parts : List VPart) : List VEvent :=
  let pr := prepareRenderPhase parts
  let rd := renderPhase parts
  (pr.1 ++ if pr.2 then [VEvent.errorReport] else []) ++
    (rd.1 ++ if rd.2 then [VEvent.errorReport] else [])

namespace View

/-- `View._flushAccumulatedAndRenderNow()`: build the coordinated rendering and
drive the four phases synchronously, each behind `safeInvokeNoArg`; phases 3–4
run only when `renderText` returned data.  The participant's
`prepareRenderText` clears the glyph-margin-lanes flag. -/
def flushAccumulatedAndRenderNow (v : ViewState) : ViewState × List VEvent :=
  let v1 : ViewState := { v with shouldRecomputeGlyphMarginLanes := false }
  match viewRenderText v1 with
  | none => (v1, [VEvent.prepareRenderTextPhase, VEvent.renderTextPhase])
  | some parts =>
      (v1, [VEvent.prepareRenderTextPhase, VEvent.renderTextPhase] ++ runPhases34 parts)

/-- `View._scheduleRender()`: throws `BugIndicatingError` when the instance is
disposed; a no-op when a rendering is already pending
(`_renderAnimationFrame !== null`); otherwise registers a fresh coordinated
rendering `r` with the singleton coordinator and records its handle. -/
def scheduleRender (v : ViewState) (c : EditorRenderingCoordinator)
    (r : Rendering) : Except Unit (ViewState × EditorRenderingCoordinator) :=
  if v.disposed then .error ()
  else if v.renderAnimationFrame.isSome then .ok (v, c)
  else .ok ({ v with renderAnimationFrame := some r.id },
            c.scheduleCoordinatedRendering r)

/-- The `everything`-branch of `View.render`: `forceShouldRender()` on the
text subsystem and on every view part. -/
def forceAll (v : ViewState) : ViewState :=
  { v with viewLinesShould := true,
           viewParts := v.viewParts.map fun p => { p with shouldRenderFlag := true } }

/-- `View.render(now, everything)`: force everything dirty when `everything`;
then either flush synchronously (`now`) or defer to `_scheduleRender` (which
would register the fresh rendering `r`). -/
def render (v : ViewState) (c : EditorRenderingCoordinator)
    (now everything : Bool) (r : Rendering) :
    Except Unit (ViewState × EditorRenderingCoordinator × List VEvent) :=
  let v1 := if everything then forceAll v else v
  if now then
    let out := flushAccumulatedAndRenderNow v1
    .ok (out.1, c, out.2)
  else
    (scheduleRender v1 c r).map fun p => (p.1, p.2, ([] : List VEvent))

end View

/-- The ids receiving a `prepareRender` call in a `View`-level trace. -/
def prepareRenderIds (tr : List VEvent) : List Nat :=
  tr.filterMap fun e =>
    match e with
    | .prepareRenderCall i => some i
    | _ => none

/-- The ids receiving a `render` call in a `View`-level trace. -/
def renderIds (tr : List VEvent) : List Nat :=
  tr.filterMap fun e =>
    match e with
    | .renderCall i => some i
    | _ => none

/-- Number of reports the unexpected-error sink receives in a `View`-level
trace. -/
def errorReportCount (tr : List VEvent) : Nat :=
  (tr.filter fun e => e = VEvent.errorReport).length

/-! Helper lemmas about the coordinator traces. -/

namespace EditorRenderingCoordinator

theorem phaseSeq_append (xs ys : List CEvent) :
    phaseSeq (xs ++ ys) = phaseSeq xs ++ phaseSeq ys := by
  simp [phaseSeq, List.filterMap_append]

theorem phaseCalls_append (xs ys : List CEvent) (p : Nat) :
    phaseCalls (xs ++ ys) p = phaseCalls xs p ++ phaseCalls ys p := by
  simp [phaseCalls, List.filterMap_append]

theorem phaseSeq_phase1Events (b : List Rendering) :
    phaseSeq (phase1Events b) = List.replicate b.length 0 := by
  induction b with
  | nil => rfl
  | cons r b ih =>
    by_cases h : r.behavior.prepareRenderTextThrows <;>
      simp [phase1Events, phaseSeq, callPhase, h, List.replicate_succ] at ih ⊢ <;>
      simpa [phase1Events, phaseSeq] using ih

theorem phaseSeq_phase2Events (b : List Rendering) :
    phaseSeq (phase2Events b) = List.replicate b.length 1 := by
  induction b with
  | nil => rfl
  | cons r b ih =>
    by_cases h : r.behavior.renderTextOutcome = TextOutcome.throws <;>
      simp [phase2Events, phaseSeq, callPhase, h, List.replicate_succ] at ih ⊢ <;>
      simpa [phase2Events, phaseSeq] using ih

theorem mem_phaseSeq_phase3Events {b : List Rendering} {x : Nat}
    (hx : x ∈ phaseSeq (phase3Events b)) : x = 2 := by
  induction b with
  | nil => simp [phase3Events, phaseSeq] at hx
  | cons r b ih =>
    simp only [phase3Events, List.flatMap_cons, phaseSeq_append, List.mem_append] at hx
    rcases hx with hx | hx
    · rcases hd : dataOf r with _ | d
      · simp [hd, phaseSeq] at hx
      · by_cases h : r.behavior.prepareRenderThrows <;>
          simp [hd, h, phaseSeq, callPhase] at hx <;> omega
    · exact ih (by simpa only [phase3Events] using hx)

theorem mem_phaseSeq_phase4Events {b : List Rendering} {x : Nat}
    (hx : x ∈ phaseSeq (phase4Events b)) : x = 3 := by
  induction b with
  | nil => simp [phase4Events, phaseSeq] at hx
  | cons r b ih =>
    simp only [phase4Events, List.flatMap_cons, phaseSeq_append, List.mem_append] at hx
    rcases hx with hx | hx
    · rcases hd : dataOf r with _ | d
      · simp [hd, phaseSeq] at hx
      · by_cases h : r.behavior.renderThrows <;>
          simp [hd, h, phaseSeq, callPhase] at hx <;> omega
    · exact ih (by simpa only [phase4Events] using hx)

theorem phase1Block_calls (r : Rendering) (p : Nat) :
    phaseCalls (CEvent.prepareRenderText r.id ::
        (if r.behavior.prepareRenderTextThrows then [CEvent.errorReport r.id 0] else [])) p =
      if p = 0 then [r.id] else [] := by
  by_cases h : r.behavior.prepareRenderTextThrows <;>
    by_cases hp : p = 0 <;>
    simp [h, hp, phaseCalls, callPhase] <;> omega

theorem phase2Block_calls (r : Rendering) (p : Nat) :
    phaseCalls (CEvent.renderText r.id ::
        (if r.behavior.renderTextOutcome = TextOutcome.throws then [CEvent.errorReport r.id 1] else [])) p =
      if p = 1 then [r.id] else [] := by
  by_cases h : r.behavior.renderTextOutcome = TextOutcome.throws <;>
    by_cases hp : p = 1 <;>
    simp [h, hp, phaseCalls, callPhase] <;> omega

theorem phase3Block_calls (r : Rendering) (p : Nat) :
    phaseCalls
        (match dataOf r with
          | none => []
          | some d =>
              CEvent.prepareRender r.id d.viewParts d.ctx ::
                (if r.behavior.prepareRenderThrows then [CEvent.errorReport r.id 2] else [])) p =
      if p = 2 ∧ (dataOf r).isSome then [r.id] else [] := by
  rcases hd : dataOf r with _ | d <;>
    by_cases h : r.behavior.prepareRenderThrows <;>
    by_cases hp : p = 2 <;>
    simp [hd, h, hp, phaseCalls, callPhase] <;> omega

theorem phase4Block_calls (r : Rendering) (p : Nat) :
    phaseCalls
        (match dataOf r with
          | none => []
          | some d =>
              CEvent.render r.id d.viewParts d.ctx ::
                (if r.behavior.renderThrows then [CEvent.errorReport r.id 3] else [])) p =
      if p = 3 ∧ (dataOf r).isSome then [r.id] else [] := by
  rcases hd : dataOf r with _ | d <;>
    by_cases h : r.behavior.renderThrows <;>
    by_cases hp : p = 3 <;>
    simp [hd, h, hp, phaseCalls, callPhase] <;> omega

theorem phaseCalls_phase1Events (b : List Rendering) (p : Nat) :
    phaseCalls (phase1Events b) p =
      if p = 0 then b.map Rendering.id else [] := by
  induction b with
  | nil => by_cases hp : p = 0 <;> simp [phase1Events, phaseCalls, hp]
  | cons r b ih =>
    simp only [phase1Events, List.flatMap_cons, phaseCalls_append] at ih ⊢
    rw [phase1Block_calls, ih]
    by_cases hp : p = 0 <;> simp [hp]

theorem phaseCalls_phase2Events (b : List Rendering) (p : Nat) :
    phaseCalls (phase2Events b) p =
      if p = 1 then b.map Rendering.id else [] := by
  induction b with
  | nil => by_cases hp : p = 1 <;> simp [phase2Events, phaseCalls, hp]
  | cons r b ih =>
    simp only [phase2Events, List.flatMap_cons, phaseCalls_append] at ih ⊢
    rw [phase2Block_calls, ih]
    by_cases hp : p = 1 <;> simp [hp]

theorem phaseCalls_phase3Events (b : List Rendering) (p : Nat) :
    phaseCalls (phase3Events b) p =
      if p = 2 then (b.filter fun r => (dataOf r).isSome).map Rendering.id else [] := by
  induction b with
  | nil => by_cases hp : p = 2 <;> simp [phase3Events, phaseCalls, hp]
  | cons r b ih =>
    simp only [phase3Events, List.flatMap_cons, phaseCalls_append] at ih ⊢
    rw [phase3Block_calls, ih]
    by_cases hp : p = 2 <;>
      rcases hd : dataOf r with _ | d <;>
      simp [hp, hd, List.filter_cons]

theorem phaseCalls_phase4Events (b : List Rendering) (p : Nat) :
    phaseCalls (phase4Events b) p =
      if p = 3 then (b.filter fun r => (dataOf r).isSome).map Rendering.id else [] := by
  induction b with
  | nil => by_cases hp : p = 3 <;> simp [phase4Events, phaseCalls, hp]
  | cons r b ih =>
    simp only [phase4Events, List.flatMap_cons, phaseCalls_append] at ih ⊢
    rw [phase4Block_calls, ih]
    by_cases hp : p = 3 <;>
      rcases hd : dataOf r with _ | d <;>
      simp [hp, hd, List.filter_cons]

theorem fireFrame_trace (c : EditorRenderingCoordinator) (w : Nat)
    (during : List Rendering) :
    (fireFrame c w during).2 =
      phase1Events c.coordinatedRenderings ++ phase2Events c.coordinatedRenderings ++
        phase3Events c.coordinatedRenderings ++ phase4Events c.coordinatedRenderings := by
  simp [fireFrame, onRenderScheduled]

theorem scheduleRenderFor_renderings (c : EditorRenderingCoordinator) (w : Nat) :
    (scheduleRenderFor c w).coordinatedRenderings = c.coordinatedRenderings := by
  by_cases h : w ∈ c.animationFrameRunners <;> simp [scheduleRenderFor, h]

theorem foldl_schedule_renderings (during : List Rendering)
    (c : EditorRenderingCoordinator) :
    (during.foldl scheduleCoordinatedRendering c).coordinatedRenderings =
      c.coordinatedRenderings ++ during := by
  induction during generalizing c with
  | nil => simp
  | cons r rest ih =>
    simp [List.foldl_cons, ih, scheduleCoordinatedRendering, scheduleRenderFor_renderings]

theorem fireFrame_state_renderings (c : EditorRenderingCoordinator) (w : Nat)
    (during : List Rendering) :
    (fireFrame c w during).1.coordinatedRenderings = during := by
  simp [fireFrame, onRenderScheduled, foldl_schedule_renderings]

end EditorRenderingCoordinator

theorem pairwise_le_of_const {l : List Nat} {k : Nat} (h : ∀ x ∈ l, x = k) :
    List.Pairwise (fun a b => a ≤ b) l :=
  List.pairwise_of_forall_mem_list fun a ha b hb => by rw [h a ha, h b hb]

open EditorRenderingCoordinator in
/-- C1: in every frame callback of the coordinator, and for every pair of
participants of the batch it processes, all `prepareRenderText` calls complete
before any `renderText` call begins, all `renderText` calls before any
`prepareRender` call, and all `prepareRender` calls before any `render` call
(phase calls are atomic, so the sequence of phase numbers along the trace is
nondecreasing); within each phase the participants are visited in registration
order (the calls of phases 1 and 2 list exactly the batch's ids in order, and
those of phases 3 and 4 the ids of the participants with non-null phase-2
data, in order). -/
theorem c1_phase_ordering_total (c : EditorRenderingCoordinator) (w : Nat)
    (during : List Rendering) :
    List.Sorted (fun a b => a ≤ b) (phaseSeq (fireFrame c w during).2) ∧
    phaseCalls (fireFrame c w during).2 0 = c.coordinatedRenderings.map Rendering.id ∧
    phaseCalls (fireFrame c w during).2 1 = c.coordinatedRenderings.map Rendering.id ∧
    phaseCalls (fireFrame c w during).2 2 =
      (c.coordinatedRenderings.filter fun r => (dataOf r).isSome).map Rendering.id ∧
    phaseCalls (fireFrame c w during).2 3 =
      (c.coordinatedRenderings.filter fun r => (dataOf r).isSome).map Rendering.id := by
  rw [fireFrame_trace]
  have key : ∀ (l1 l2 l3 l4 : List Nat),
      (∀ x ∈ l1, x = 0) → (∀ x ∈ l2, x = 1) → (∀ x ∈ l3, x = 2) → (∀ x ∈ l4, x = 3) →
      List.Pairwise (fun a b => a ≤ b) (l1 ++ l2 ++ l3 ++ l4) := by
    intro l1 l2 l3 l4 h1 h2 h3 h4
    rw [List.pairwise_append, List.pairwise_append, List.pairwise_append]
    refine ⟨⟨⟨pairwise_le_of_const h1, pairwise_le_of_const h2, ?_⟩,
        pairwise_le_of_const h3, ?_⟩, pairwise_le_of_const h4, ?_⟩
    · intro a ha b hb
      rw [h1 a ha, h2 b hb]
      omega
    · intro a ha b hb
      rcases List.mem_append.1 ha with h | h
      · rw [h1 a h, h3 b hb]
        omega
      · rw [h2 a h, h3 b hb]
        omega
    · intro a ha b hb
      rcases List.mem_append.1 ha with h | h
      · rcases List.mem_append.1 h with hh | hh
        · rw [h1 a hh, h4 b hb]
          omega
        · rw [h2 a hh, h4 b hb]
          omega
      · rw [h3 a h, h4 b hb]
        omega
  refine ⟨?_, ?_, ?_, ?_, ?_⟩
  · show List.Pairwise (fun a b => a ≤ b) _
    rw [phaseSeq_append, phaseSeq_append, phaseSeq_append]
    exact key _ _ _ _
      (fun x hx => List.eq_of_mem_replicate (by rwa [phaseSeq_phase1Events] at hx))
      (fun x hx => List.eq_of_mem_replicate (by rwa [phaseSeq_phase2Events] at hx))
      (fun x hx => mem_phaseSeq_phase3Events hx)
      (fun x hx => mem_phaseSeq_phase4Events hx)
  all_goals
    rw [phaseCalls_append, phaseCalls_append, phaseCalls_append,
      phaseCalls_phase1Events, phaseCalls_phase2Events, phaseCalls_phase3Events,
      phaseCalls_phase4Events]
    simp

/-! Concrete fixtures used by counterexamples and witnesses. -/

/-- A participant behaviour that completes every phase and whose `renderText`
returns `null`. -/
def rbQuiet : RBehavior := ⟨false, TextOutcome.nullResult, false, false⟩

/-- A participant registered for window 0. -/
def rWinA : Rendering := ⟨1, 0, rbQuiet⟩

/-- A participant registered for window 1. -/
def rWinB : Rendering := ⟨2, 1, rbQuiet⟩

/-- A participant scheduled for window 0 while a callback runs. -/
def rDuring : Rendering := ⟨3, 0, rbQuiet⟩

/-- Coordinator state reached from process start by scheduling `rWinA`
(window 0) and then `rWinB` (window 1). -/
def cTwoWindows : EditorRenderingCoordinator :=
  (EditorRenderingCoordinator.initial.scheduleCoordinatedRendering rWinA).scheduleCoordinatedRendering rWinB

open EditorRenderingCoordinator in
/-- C2 counterexample: with `rWinA` registered for window 0 and `rWinB` for
window 1, window 0's frame callback processes both participants — the
processed set is the whole global pending list, not the set registered for
window 0 at fire time, contradicting the claim at this input. -/
theorem c2_counterexample_cross_window :
    processedIds (EditorRenderingCoordinator.fireFrame cTwoWindows 0 []).2 ≠
      (cTwoWindows.coordinatedRenderings.filter fun r => r.window == 0).map Rendering.id := by
  decide

open EditorRenderingCoordinator in
/-- C2 amended: the set of participants processed by a frame callback is
exactly the set registered globally (across all windows) at fire time, in
registration order; participants scheduled during the callback's own execution
form the new pending list and — when fresh — are never processed in the
in-flight batch. -/
theorem c2_amended_global_batch (c : EditorRenderingCoordinator) (w : Nat)
    (during : List Rendering) (r : Rendering)
    (hr : r ∈ during) (hfresh : r.id ∉ c.coordinatedRenderings.map Rendering.id) :
    processedIds (fireFrame c w during).2 = c.coordinatedRenderings.map Rendering.id ∧
    (fireFrame c w during).1.coordinatedRenderings = during ∧
    r.id ∉ processedIds (fireFrame c w during).2 := by
  have h1 : processedIds (fireFrame c w during).2 = c.coordinatedRenderings.map Rendering.id := by
    rw [processedIds, fireFrame_trace, phaseCalls_append, phaseCalls_append,
      phaseCalls_append, phaseCalls_phase1Events, phaseCalls_phase2Events,
      phaseCalls_phase3Events, phaseCalls_phase4Events]
    simp
  exact ⟨h1, fireFrame_state_renderings c w during, by rw [h1]; exact hfresh⟩

/-- Witness for the amended C2 at the concrete two-window state: the trace of
window 0's callback processes ids 1 and 2; the fresh participant `rDuring`
(id 3) scheduled during the callback forms the next batch and is not
processed. -/
theorem c2_amended_global_batch_witness :
    processedIds (EditorRenderingCoordinator.fireFrame cTwoWindows 0 [rDuring]).2 =
      cTwoWindows.coordinatedRenderings.map Rendering.id ∧
    (EditorRenderingCoordinator.fireFrame cTwoWindows 0 [rDuring]).1.coordinatedRenderings =
      [rDuring] ∧
    rDuring.id ∉ processedIds (EditorRenderingCoordinator.fireFrame cTwoWindows 0 [rDuring]).2 :=
  c2_amended_global_batch cTwoWindows 0 [rDuring] rDuring (by decide) (by decide)

theorem coordInv_initial : CoordInv EditorRenderingCoordinator.initial := by
  refine ⟨List.nodup_nil, fun _ => rfl, ?_⟩
  intro r hr
  simp [EditorRenderingCoordinator.initial] at hr

theorem mem_scheduleRenderFor_of_mem {c : EditorRenderingCoordinator} {w y : Nat}
    (h : y ∈ c.animationFrameRunners) :
    y ∈ (c.scheduleRenderFor w).animationFrameRunners := by
  by_cases hw : w ∈ c.animationFrameRunners <;>
    simp [EditorRenderingCoordinator.scheduleRenderFor, hw, h]

theorem mem_scheduleRenderFor_self (c : EditorRenderingCoordinator) (w : Nat) :
    w ∈ (c.scheduleRenderFor w).animationFrameRunners := by
  by_cases hw : w ∈ c.animationFrameRunners <;>
    simp [EditorRenderingCoordinator.scheduleRenderFor, hw]

theorem nodup_scheduleRenderFor {c : EditorRenderingCoordinator} {w : Nat}
    (h : c.animationFrameRunners.Nodup) :
    (c.scheduleRenderFor w).animationFrameRunners.Nodup := by
  by_cases hw : w ∈ c.animationFrameRunners <;>
    simp [EditorRenderingCoordinator.scheduleRenderFor, hw, List.nodup_append, h]

theorem coordInv_applyOp {c : EditorRenderingCoordinator} (h : CoordInv c)
    (op : CoordOp) : CoordInv (applyOp c op) := by
  obtain ⟨hnd, hemp, hwin⟩ := h
  cases op with
  | schedule r =>
    refine ⟨nodup_scheduleRenderFor hnd, ?_, ?_⟩
    · intro habs
      have : (c.coordinatedRenderings ++ [r]) = [] := by
        simpa [applyOp, EditorRenderingCoordinator.scheduleCoordinatedRendering,
          EditorRenderingCoordinator.scheduleRenderFor_renderings] using habs
      simp at this
    · intro r' hr'
      have hr'' : r' ∈ c.coordinatedRenderings ++ [r] := by
        simpa [applyOp, EditorRenderingCoordinator.scheduleCoordinatedRendering,
          EditorRenderingCoordinator.scheduleRenderFor_renderings] using hr'
      rcases List.mem_append.1 hr'' with hm | hm
      · exact mem_scheduleRenderFor_of_mem (hwin r' hm)
      · have : r' = r := by simpa using hm
        subst this
        exact mem_scheduleRenderFor_self _ _
  | disposeOf r =>
    by_cases hr : r ∈ c.coordinatedRenderings
    · by_cases he : (c.coordinatedRenderings.erase r).isEmpty
      · have : applyOp c (CoordOp.disposeOf r) =
            ⟨c.coordinatedRenderings.erase r, []⟩ := by
          simp [applyOp, EditorRenderingCoordinator.disposeHandle, hr, he]
        rw [this]
        refine ⟨List.nodup_nil, fun _ => rfl, ?_⟩
        intro r' hr'
        rw [List.isEmpty_iff] at he
        simp [he] at hr'
      · have : applyOp c (CoordOp.disposeOf r) =
            { c with coordinatedRenderings := c.coordinatedRenderings.erase r } := by
          simp [applyOp, EditorRenderingCoordinator.disposeHandle, hr, he]
        rw [this]
        refine ⟨hnd, ?_, ?_⟩
        · intro habs
          rw [List.isEmpty_iff] at he
          exact absurd habs he
        · intro r' hr'
          exact hwin r' (List.mem_of_mem_erase hr')
    · have : applyOp c (CoordOp.disposeOf r) = c := by
        simp [applyOp, EditorRenderingCoordinator.disposeHandle, hr]
      rw [this]
      exact ⟨hnd, hemp, hwin⟩

/-- Coordinator state reached by additionally disposing `rWinA`'s cancellation
handle: window 0 now has zero pending participants. -/
def cAfterDispose : EditorRenderingCoordinator := cTwoWindows.disposeHandle rWinA

/-- C5 counterexample: after scheduling `rWinA` (window 0) and `rWinB`
(window 1) and disposing `rWinA`'s handle, window 0 has zero pending
participants yet still holds an outstanding frame handle — the claim's
"a window with zero pending participants holds no handle" and "when the
pending set for its window becomes empty that window's outstanding frame
handle is cancelled" fail at this input. -/
theorem c5_counterexample_window_keeps_handle :
    (cAfterDispose.coordinatedRenderings.filter fun r => r.window == 0) = [] ∧
    0 ∈ cAfterDispose.animationFrameRunners := by
  decide

open EditorRenderingCoordinator in
/-- C5 amended: across every sequence of `scheduleCoordinatedRendering` calls
and cancellation-handle disposals from process start, each window holds at
most one outstanding frame handle, a coordinator with an empty global pending
list holds no handle for any window, and every pending participant's window
holds a handle; disposing a pending participant's handle removes it from the
pending list, and the outstanding frame handles are cancelled exactly when the
global pending list (across all windows) becomes empty — not when one
window's own participants are gone. -/
theorem c5_amended_handle_invariant (ops : List CoordOp)
    (c : EditorRenderingCoordinator) (r : Rendering)
    (hr : r ∈ c.coordinatedRenderings) :
    CoordInv (applyOps EditorRenderingCoordinator.initial ops) ∧
    (c.disposeHandle r).coordinatedRenderings = c.coordinatedRenderings.erase r ∧
    (c.coordinatedRenderings.erase r = [] →
      (c.disposeHandle r).animationFrameRunners = []) ∧
    (c.coordinatedRenderings.erase r ≠ [] →
      (c.disposeHandle r).animationFrameRunners = c.animationFrameRunners) := by
  have hinv : ∀ (l : List CoordOp) (c0 : EditorRenderingCoordinator),
      CoordInv c0 → CoordInv (applyOps c0 l) := by
    intro l
    induction l with
    | nil => exact fun c0 h => h
    | cons op rest ih => exact fun c0 h => ih _ (coordInv_applyOp h op)
  refine ⟨hinv ops _ coordInv_initial, ?_, ?_, ?_⟩
  · by_cases he : (c.coordinatedRenderings.erase r).isEmpty <;>
      simp [disposeHandle, hr, he]
  · intro he
    simp [disposeHandle, hr, List.isEmpty_iff, he]
  · intro he
    have he' : (c.coordinatedRenderings.erase r).isEmpty = false := by
      rw [List.isEmpty_eq_false_iff_exists_mem]
      rcases List.exists_mem_of_ne_nil _ he with ⟨x, hx⟩
      exact ⟨x, hx⟩
    simp [disposeHandle, hr, he']

/-- Witness for the amended C5 at the concrete two-window run
schedule `rWinA`; schedule `rWinB`; dispose `rWinA`: the invariant holds at
the resulting state, the disposal removed exactly `rWinA` from the pending
list, and since `rWinB` is still pending globally, the frame handles
(including window 0's) were left untouched. -/
theorem c5_amended_handle_invariant_witness :
    CoordInv (applyOps EditorRenderingCoordinator.initial
      [CoordOp.schedule rWinA, CoordOp.schedule rWinB, CoordOp.disposeOf rWinA]) ∧
    (cTwoWindows.disposeHandle rWinA).coordinatedRenderings =
      cTwoWindows.coordinatedRenderings.erase rWinA ∧
    (cTwoWindows.disposeHandle rWinA).animationFrameRunners =
      cTwoWindows.animationFrameRunners := by
  have h := c5_amended_handle_invariant
    [CoordOp.schedule rWinA, CoordOp.schedule rWinB, CoordOp.disposeOf rWinA]
    cTwoWindows rWinA (by decide)
  exact ⟨h.1, h.2.1, h.2.2.2 (by decide)⟩

open EditorRenderingCoordinator in
/-- C10: a participant whose `renderText` produced data `d` gets its
`prepareRender` call and — even though its `prepareRender` throws, which the
coordinator catches and reports — still gets its `render` call, with the very
same view-part list and context `d`. -/
theorem c10_render_not_skipped_on_prepareRender_throw
    (c : EditorRenderingCoordinator) (w : Nat) (during : List Rendering)
    (r : Rendering) (d : RData)
    (hr : r ∈ c.coordinatedRenderings)
    (hd : r.behavior.renderTextOutcome = TextOutcome.data d)
    (hp : r.behavior.prepareRenderThrows = true) :
    CEvent.prepareRender r.id d.viewParts d.ctx ∈ (fireFrame c w during).2 ∧
    CEvent.errorReport r.id 2 ∈ (fireFrame c w during).2 ∧
    CEvent.render r.id d.viewParts d.ctx ∈ (fireFrame c w during).2 := by
  have hdata : dataOf r = some d := by simp [dataOf, hd]
  rw [fireFrame_trace]
  refine ⟨?_, ?_, ?_⟩
  · refine List.mem_append_left _ (List.mem_append_right _ ?_)
    simp only [phase3Events, List.mem_flatMap]
    exact ⟨r, hr, by simp [hdata]⟩
  · refine List.mem_append_left _ (List.mem_append_right _ ?_)
    simp only [phase3Events, List.mem_flatMap]
    exact ⟨r, hr, by simp [hdata, hp]⟩
  · refine List.mem_append_right _ ?_
    simp only [phase4Events, List.mem_flatMap]
    refine ⟨r, hr, by simp [hdata]⟩

/-- A participant whose `renderText` returns data `⟨[7], 5⟩` and whose
`prepareRender` throws. -/
def rDataThrows : Rendering := ⟨4, 0, ⟨false, TextOutcome.data ⟨[7], 5⟩, true, false⟩⟩

/-- Coordinator with only `rDataThrows` pending. -/
def cDataThrows : EditorRenderingCoordinator :=
  EditorRenderingCoordinator.initial.scheduleCoordinatedRendering rDataThrows

/-- Witness for C10 at a concrete one-participant state: the trace of the
frame contains the `prepareRender` call, the error report for its throw, and
the `render` call with the same list and context. -/
theorem c10_render_not_skipped_on_prepareRender_throw_witness :
    CEvent.prepareRender 4 [7] 5 ∈ (EditorRenderingCoordinator.fireFrame cDataThrows 0 []).2 ∧
    CEvent.errorReport 4 2 ∈ (EditorRenderingCoordinator.fireFrame cDataThrows 0 []).2 ∧
    CEvent.render 4 [7] 5 ∈ (EditorRenderingCoordinator.fireFrame cDataThrows 0 []).2 :=
  c10_render_not_skipped_on_prepareRender_throw cDataThrows 0 [] rDataThrows ⟨[7], 5⟩
    (by decide) (by decide) (by decide)

open EditorRenderingCoordinator in
/-- C8: when a participant's visual root is not attached
(`domNode.domNode.isConnected` false), its `renderText` returns `null`
(the `View`-level function yields `none`), and at the coordinator a
participant whose `renderText` returned `null` receives no `prepareRender` or
`render` call in its frame and contributes no error report past phase 1: the
detached root is a no-op, not an exception, and the frame callback (a total
function here, every phase call being wrapped in `safeInvokeNoArg`) completes
normally.  Participant ids in the batch are assumed distinct, which models
object identity of the registered records. -/
theorem c8_detached_root_noop (v : ViewState) (c : EditorRenderingCoordinator)
    (w : Nat) (r : Rendering)
    (hconn : v.domNodeConnected = false)
    (hr : r ∈ c.coordinatedRenderings)
    (hnull : r.behavior.renderTextOutcome = TextOutcome.nullResult)
    (hnodup : (c.coordinatedRenderings.map Rendering.id).Nodup) :
    viewRenderText v = none ∧
    lateEventsFor r.id (fireFrame c w []).2 = [] := by
  have hinj : ∀ r' ∈ c.coordinatedRenderings, r'.id = r.id → r' = r :=
    fun r' hr' he => List.inj_on_of_nodup_map hnodup hr' hr he
  refine ⟨by simp [viewRenderText, hconn], ?_⟩
  rw [lateEventsFor, List.filter_eq_nil_iff]
  intro e he
  rw [fireFrame_trace] at he
  rcases List.mem_append.1 he with h123 | h4
  rcases List.mem_append.1 h123 with h12 | h3
  rcases List.mem_append.1 h12 with h1 | h2
  · -- phase 1 events: a prepareRenderText call or a phase-0 error report
    simp only [phase1Events, List.mem_flatMap] at h1
    obtain ⟨r', _, hmem⟩ := h1
    rcases List.mem_cons.1 hmem with rfl | hmem'
    · simp
    · by_cases hth : r'.behavior.prepareRenderTextThrows <;> simp [hth] at hmem'
      subst hmem'
      simp
  · -- phase 2 events: a renderText call, or a throw report from a
    -- participant other than r (r returns null, it cannot throw)
    simp only [phase2Events, List.mem_flatMap] at h2
    obtain ⟨r', hr', hmem⟩ := h2
    rcases List.mem_cons.1 hmem with rfl | hmem'
    · simp
    · by_cases hth : r'.behavior.renderTextOutcome = TextOutcome.throws <;>
        simp [hth] at hmem'
      subst hmem'
      simp only [Bool.and_eq_true, beq_iff_eq, bne_iff_ne, decide_eq_true_eq]
      intro hcon
      have hid : r'.id = r.id := hcon.1
      have : r' = r := hinj r' hr' hid
      subst this
      rw [hnull] at hth
      exact absurd hth (by simp)
  · -- phase 3 events: only participants with non-null data contribute
    simp only [phase3Events, List.mem_flatMap] at h3
    obtain ⟨r', hr', hmem⟩ := h3
    rcases hd : dataOf r' with _ | d
    · simp [hd] at hmem
    · have hne : r'.id ≠ r.id := by
        intro hid
        have : r' = r := hinj r' hr' hid
        subst this
        rw [dataOf, hnull] at hd
        simp at hd
      simp only [hd] at hmem
      rcases List.mem_cons.1 hmem with rfl | hmem'
      · simp [hne]
      · by_cases hth : r'.behavior.prepareRenderThrows <;> simp [hth] at hmem'
        subst hmem'
        simp [hne]
  · -- phase 4 events: only participants with non-null data contribute
    simp only [phase4Events, List.mem_flatMap] at h4
    obtain ⟨r', hr', hmem⟩ := h4
    rcases hd : dataOf r' with _ | d
    · simp [hd] at hmem
    · have hne : r'.id ≠ r.id := by
        intro hid
        have : r' = r := hinj r' hr' hid
        subst this
        rw [dataOf, hnull] at hd
        simp at hd
      simp only [hd] at hmem
      rcases List.mem_cons.1 hmem with rfl | hmem'
      · simp [hne]
      · by_cases hth : r'.behavior.renderThrows <;> simp [hth] at hmem'
        subst hmem'
        simp [hne]

/-- A detached view: root dom node not connected. -/
def vDetached : ViewState :=
  { disposed := false, renderAnimationFrame := none, domNodeConnected := false,
    viewLinesShould := true, viewParts := [⟨9, true, false, false⟩],
    textRenderDirties := [], shouldRecomputeGlyphMarginLanes := false }

/-- Coordinator with one pending null-returning participant (`rWinA`). -/
def cOneNull : EditorRenderingCoordinator :=
  EditorRenderingCoordinator.initial.scheduleCoordinatedRendering rWinA

/-- Witness for C8 at a concrete detached view and a one-participant
coordinator state: `renderText` yields `none` and participant 1 receives
nothing past phase 2 and reports no error. -/
theorem c8_detached_root_noop_witness :
    viewRenderText vDetached = none ∧
    lateEventsFor rWinA.id (EditorRenderingCoordinator.fireFrame cOneNull 0 []).2 = [] :=
  c8_detached_root_noop vDetached cOneNull 0 rWinA (by decide) (by decide) (by decide)
    (by decide)

open EditorRenderingCoordinator in
/-- C4: on a live view with no pending rendering, the first `scheduleRender`
call registers exactly one fresh participant with the coordinator and records
the handle; every subsequent call while that rendering is pending is a no-op
(state unchanged, nothing registered); the participant appears exactly once in
the pending list and is processed exactly once in the frame that fires. -/
theorem c4_scheduleRender_idempotent (v : ViewState)
    (c : EditorRenderingCoordinator) (r r' : Rendering)
    (hdisp : v.disposed = false)
    (hpend : v.renderAnimationFrame = none)
    (hfresh : r.id ∉ c.coordinatedRenderings.map Rendering.id) :
    View.scheduleRender v c r =
      .ok ({ v with renderAnimationFrame := some r.id },
        c.scheduleCoordinatedRendering r) ∧
    View.scheduleRender { v with renderAnimationFrame := some r.id }
        (c.scheduleCoordinatedRendering r) r' =
      .ok ({ v with renderAnimationFrame := some r.id },
        c.scheduleCoordinatedRendering r) ∧
    (c.scheduleCoordinatedRendering r).coordinatedRenderings =
      c.coordinatedRenderings ++ [r] ∧
    (processedIds (fireFrame (c.scheduleCoordinatedRendering r) r.window []).2).count
      r.id = 1 := by
  have hproc : processedIds (fireFrame (c.scheduleCoordinatedRendering r) r.window []).2 =
      c.coordinatedRenderings.map Rendering.id ++ [r.id] := by
    rw [processedIds, fireFrame_trace, phaseCalls_append, phaseCalls_append,
      phaseCalls_append, phaseCalls_phase1Events, phaseCalls_phase2Events,
      phaseCalls_phase3Events, phaseCalls_phase4Events]
    simp [scheduleCoordinatedRendering, scheduleRenderFor_renderings]
  refine ⟨?_, ?_, ?_, ?_⟩
  · simp [View.scheduleRender, hdisp, hpend]
  · simp [View.scheduleRender, hdisp]
  · simp [scheduleCoordinatedRendering, scheduleRenderFor_renderings]
  · rw [hproc, List.count_append, List.count_eq_zero.mpr hfresh]
    simp

/-- A live view with no pending rendering and no parts. -/
def vFresh : ViewState :=
  { disposed := false, renderAnimationFrame := none, domNodeConnected := true,
    viewLinesShould := false, viewParts := [], textRenderDirties := [],
    shouldRecomputeGlyphMarginLanes := false }

/-- Witness for C4 at a concrete fresh view and empty coordinator: the first
call registers `rWinA`, the second is a no-op, and id 1 is processed exactly
once in the fired frame. -/
theorem c4_scheduleRender_idempotent_witness :
    View.scheduleRender vFresh EditorRenderingCoordinator.initial rWinA =
      .ok ({ vFresh with renderAnimationFrame := some rWinA.id },
        EditorRenderingCoordinator.initial.scheduleCoordinatedRendering rWinA) ∧
    View.scheduleRender { vFresh with renderAnimationFrame := some rWinA.id }
        (EditorRenderingCoordinator.initial.scheduleCoordinatedRendering rWinA) rWinB =
      .ok ({ vFresh with renderAnimationFrame := some rWinA.id },
        EditorRenderingCoordinator.initial.scheduleCoordinatedRendering rWinA) ∧
    (EditorRenderingCoordinator.initial.scheduleCoordinatedRendering rWinA).coordinatedRenderings =
      EditorRenderingCoordinator.initial.coordinatedRenderings ++ [rWinA] ∧
    (processedIds (EditorRenderingCoordinator.fireFrame
      (EditorRenderingCoordinator.initial.scheduleCoordinatedRendering rWinA)
      rWinA.window []).2).count rWinA.id = 1 :=
  c4_scheduleRender_idempotent vFresh EditorRenderingCoordinator.initial rWinA rWinB
    (by decide) (by decide) (by decide)

/-- C6: `View.render(now, everything)` — forcing (`everything = true`) marks
the text subsystem and every view part as requiring rendering for this cycle;
with `now = true` the whole four-phase sequence runs synchronously inside the
call (its full trace is returned) and the coordinator state is returned
untouched, so no frame is scheduled as a side effect; forcing on an attached
view makes `renderText` produce data, so phases 3 and 4 also run; and with
`now = false` the call defers to `scheduleRender`. -/
theorem c6_render_force_now (v : ViewState) (c : EditorRenderingCoordinator)
    (r : Rendering) (everything : Bool)
    (hconn : v.domNodeConnected = true) :
    (View.forceAll v).viewLinesShould = true ∧
    (View.forceAll v).viewParts =
      v.viewParts.map (fun p => { p with shouldRenderFlag := true }) ∧
    View.render v c true everything r =
      .ok ((View.flushAccumulatedAndRenderNow (if everything then View.forceAll v else v)).1, c,
        (View.flushAccumulatedAndRenderNow (if everything then View.forceAll v else v)).2) ∧
    (View.flushAccumulatedAndRenderNow (View.forceAll v)).2 =
      [VEvent.prepareRenderTextPhase, VEvent.renderTextPhase] ++
        runPhases34 (getViewPartsToRender (applyTextDirties (View.forceAll v))) ∧
    View.render v c false everything r =
      (View.scheduleRender (if everything then View.forceAll v else v) c r).map
        (fun p => (p.1, p.2, ([] : List VEvent))) := by
  have hvrt : viewRenderText { View.forceAll v with shouldRecomputeGlyphMarginLanes := false } =
      some (getViewPartsToRender (applyTextDirties (View.forceAll v))) := by
    simp [viewRenderText, View.forceAll, applyTextDirties, hconn]
  refine ⟨rfl, rfl, rfl, ?_, rfl⟩
  simp [View.flushAccumulatedAndRenderNow, hvrt]

/-- A live attached view with one clean part. -/
def vConn : ViewState :=
  { disposed := false, renderAnimationFrame := none, domNodeConnected := true,
    viewLinesShould := false, viewParts := [⟨6, false, false, false⟩],
    textRenderDirties := [], shouldRecomputeGlyphMarginLanes := false }

/-- Witness for C6 at a concrete attached view, with `everything = true`. -/
theorem c6_render_force_now_witness :
    (View.forceAll vConn).viewLinesShould = true ∧
    (View.forceAll vConn).viewParts =
      vConn.viewParts.map (fun p => { p with shouldRenderFlag := true }) ∧
    View.render vConn EditorRenderingCoordinator.initial true true rWinA =
      .ok ((View.flushAccumulatedAndRenderNow
          (if true then View.forceAll vConn else vConn)).1,
        EditorRenderingCoordinator.initial,
        (View.flushAccumulatedAndRenderNow
          (if true then View.forceAll vConn else vConn)).2) ∧
    (View.flushAccumulatedAndRenderNow (View.forceAll vConn)).2 =
      [VEvent.prepareRenderTextPhase, VEvent.renderTextPhase] ++
        runPhases34 (getViewPartsToRender (applyTextDirties (View.forceAll vConn))) ∧
    View.render vConn EditorRenderingCoordinator.initial false true rWinA =
      (View.scheduleRender (if true then View.forceAll vConn else vConn)
        EditorRenderingCoordinator.initial rWinA).map
        (fun p => (p.1, p.2, ([] : List VEvent))) :=
  c6_render_force_now vConn EditorRenderingCoordinator.initial rWinA true (by decide)

/-- A disposed view. -/
def vDisposed : ViewState :=
  { disposed := true, renderAnimationFrame := none, domNodeConnected := true,
    viewLinesShould := false, viewParts := [], textRenderDirties := [],
    shouldRecomputeGlyphMarginLanes := false }

/-- C7 counterexample: `render(now = true, …)` on a disposed view does not
raise the invariant-violation error — it completes normally (here rendering
nothing, since nothing is dirty), because the disposed check sits only in
`_scheduleRender` and in the coordinator-registered phase wrappers, not in
`render`/`_flushAccumulatedAndRenderNow`.  This contradicts the claim that
every public method fails fatally after disposal. -/
theorem c7_counterexample_render_now_after_dispose :
    View.render vDisposed EditorRenderingCoordinator.initial true false rWinA =
      .ok (vDisposed, EditorRenderingCoordinator.initial,
        [VEvent.prepareRenderTextPhase, VEvent.renderTextPhase]) := by
  rfl

/-- C7 amended: on a disposed view, `scheduleRender` — and hence every public
method that defers to it, including `render` with `now = false` — raises the
invariant-violation error immediately; `render` with `now = true` performs no
disposed check and proceeds to flush synchronously. -/
theorem c7_amended_dispose_fatal (v : ViewState) (c : EditorRenderingCoordinator)
    (r : Rendering) (everything : Bool)
    (hd : v.disposed = true) :
    View.scheduleRender v c r = .error () ∧
    View.render v c false everything r = .error () ∧
    View.render v c true everything r =
      .ok ((View.flushAccumulatedAndRenderNow (if everything then View.forceAll v else v)).1, c,
        (View.flushAccumulatedAndRenderNow (if everything then View.forceAll v else v)).2) := by
  refine ⟨by simp [View.scheduleRender, hd], ?_, rfl⟩
  cases everything <;>
    simp [View.render, View.scheduleRender, View.forceAll, hd, Except.map]

/-- Witness for the amended C7 at the concrete disposed view. -/
theorem c7_amended_dispose_fatal_witness :
    View.scheduleRender vDisposed EditorRenderingCoordinator.initial rWinA = .error () ∧
    View.render vDisposed EditorRenderingCoordinator.initial false false rWinA = .error () ∧
    View.render vDisposed EditorRenderingCoordinator.initial true false rWinA =
      .ok ((View.flushAccumulatedAndRenderNow
          (if false then View.forceAll vDisposed else vDisposed)).1,
        EditorRenderingCoordinator.initial,
        (View.flushAccumulatedAndRenderNow
          (if false then View.forceAll vDisposed else vDisposed)).2) :=
  c7_amended_dispose_fatal vDisposed EditorRenderingCoordinator.initial rWinA false
    (by decide)

theorem prepareRenderPhase_clean (parts : List VPart)
    (h : ∀ p ∈ parts, p.prepareRenderThrows = false) :
    prepareRenderPhase parts =
      (parts.map fun p => VEvent.prepareRenderCall p.id, false) := by
  induction parts with
  | nil => rfl
  | cons p rest ih =>
    have hp : p.prepareRenderThrows = false := h p (List.mem_cons_self p rest)
    simp [prepareRenderPhase, hp, ih fun q hq => h q (List.mem_cons_of_mem p hq)]

theorem prepareRenderPhase_throw_at (pre post : List VPart) (bad : VPart)
    (h1 : ∀ p ∈ pre, p.prepareRenderThrows = false)
    (h2 : bad.prepareRenderThrows = true) :
    prepareRenderPhase (pre ++ bad :: post) =
      ((pre.map fun p => VEvent.prepareRenderCall p.id) ++
        [VEvent.prepareRenderCall bad.id], true) := by
  induction pre with
  | nil => simp [prepareRenderPhase, h2]
  | cons p rest ih =>
    have hp : p.prepareRenderThrows = false := h1 p (List.mem_cons_self p rest)
    simp [prepareRenderPhase, hp, ih fun q hq => h1 q (List.mem_cons_of_mem p hq)]

theorem renderPhase_clean (parts : List VPart)
    (h : ∀ p ∈ parts, p.renderThrows = false) :
    renderPhase parts =
      (parts.flatMap fun p => [VEvent.renderCall p.id, VEvent.onDidRenderCall p.id],
        false) := by
  induction parts with
  | nil => rfl
  | cons p rest ih =>
    have hp : p.renderThrows = false := h p (List.mem_cons_self p rest)
    simp [renderPhase, hp, ih fun q hq => h q (List.mem_cons_of_mem p hq)]

theorem prepareRenderIds_append (xs ys : List VEvent) :
    prepareRenderIds (xs ++ ys) = prepareRenderIds xs ++ prepareRenderIds ys := by
  simp [prepareRenderIds, List.filterMap_append]

theorem renderIds_append (xs ys : List VEvent) :
    renderIds (xs ++ ys) = renderIds xs ++ renderIds ys := by
  simp [renderIds, List.filterMap_append]

theorem errorReportCount_append (xs ys : List VEvent) :
    errorReportCount (xs ++ ys) = errorReportCount xs + errorReportCount ys := by
  simp [errorReportCount, List.filter_append]

theorem prepareRenderIds_nil : prepareRenderIds [] = [] := rfl

theorem renderIds_nil : renderIds [] = [] := rfl

theorem errorReportCount_nil : errorReportCount [] = 0 := rfl

theorem prepareRenderIds_cons (e : VEvent) (l : List VEvent) :
    prepareRenderIds (e :: l) =
      (match e with | VEvent.prepareRenderCall i => [i] | _ => []) ++
        prepareRenderIds l := by
  cases e <;> rfl

theorem renderIds_cons (e : VEvent) (l : List VEvent) :
    renderIds (e :: l) =
      (match e with | VEvent.renderCall i => [i] | _ => []) ++ renderIds l := by
  cases e <;> rfl

theorem errorReportCount_cons (e : VEvent) (l : List VEvent) :
    errorReportCount (e :: l) =
      errorReportCount l + (if e = VEvent.errorReport then 1 else 0) := by
  cases e <;> simp [errorReportCount, List.filter_cons]

theorem prepareRenderIds_prepCalls (l : List VPart) :
    prepareRenderIds (l.map fun p => VEvent.prepareRenderCall p.id) =
      l.map VPart.id := by
  induction l with
  | nil => rfl
  | cons p rest ih => simp [prepareRenderIds_cons, ih]

theorem renderIds_prepCalls (l : List VPart) :
    renderIds (l.map fun p => VEvent.prepareRenderCall p.id) = [] := by
  induction l with
  | nil => rfl
  | cons p rest ih => simp [renderIds_cons, ih]

theorem errorReportCount_prepCalls (l : List VPart) :
    errorReportCount (l.map fun p => VEvent.prepareRenderCall p.id) = 0 := by
  induction l with
  | nil => rfl
  | cons p rest ih => simp [errorReportCount_cons, ih]

theorem prepareRenderIds_renderBlock (l : List VPart) :
    prepareRenderIds
      (l.flatMap fun p => [VEvent.renderCall p.id, VEvent.onDidRenderCall p.id]) = [] := by
  induction l with
  | nil => rfl
  | cons p rest ih =>
    simp [List.flatMap_cons, prepareRenderIds_append, prepareRenderIds_cons,
      prepareRenderIds_nil, ih]

theorem renderIds_renderBlock (l : List VPart) :
    renderIds
      (l.flatMap fun p => [VEvent.renderCall p.id, VEvent.onDidRenderCall p.id]) =
      l.map VPart.id := by
  induction l with
  | nil => rfl
  | cons p rest ih =>
    simp [List.flatMap_cons, renderIds_append, renderIds_cons, renderIds_nil, ih]

theorem errorReportCount_renderBlock (l : List VPart) :
    errorReportCount
      (l.flatMap fun p => [VEvent.renderCall p.id, VEvent.onDidRenderCall p.id]) = 0 := by
  induction l with
  | nil => rfl
  | cons p rest ih =>
    simp [List.flatMap_cons, errorReportCount_append, errorReportCount_cons,
      errorReportCount_nil, ih]

/-- A part that throws during `prepareRender` (and is dirty). -/
def pThrow : VPart := ⟨1, true, true, false⟩

/-- A dirty part with no failures. -/
def pOk : VPart := ⟨2, true, false, false⟩

/-- C3 counterexample: in the batch `[pThrow, pOk]`, `pThrow` throws during
`prepareRender`; the participant-level loop has no per-part catch, so `pOk` —
a remaining part of the same batch — never receives its `prepareRender` call,
contradicting the claim at this input. -/
theorem c3_counterexample_prepareRender_aborts_rest :
    VEvent.prepareRenderCall pOk.id ∉ runPhases34 [pThrow, pOk] := by
  decide

/-- C3 amended: if a part throws during `prepareRender`, the parts after it in
the batch lose their `prepareRender` call for that frame (the loop aborts and
`safeInvokeNoArg` catches at the phase call site), the error sink receives
exactly one report, and — because the `render` phase is driven independently —
every part of the batch, including those skipped in phase 3, still receives
its `render` call (none of them throwing during `render`). -/
theorem c3_amended_render_still_runs (pre post : List VPart) (bad : VPart)
    (h1 : ∀ p ∈ pre, p.prepareRenderThrows = false)
    (h2 : bad.prepareRenderThrows = true)
    (h3 : ∀ p ∈ pre ++ bad :: post, p.renderThrows = false) :
    prepareRenderIds (runPhases34 (pre ++ bad :: post)) =
      pre.map VPart.id ++ [bad.id] ∧
    renderIds (runPhases34 (pre ++ bad :: post)) =
      (pre ++ bad :: post).map VPart.id ∧
    errorReportCount (runPhases34 (pre ++ bad :: post)) = 1 := by
  have hpr := prepareRenderPhase_throw_at pre post bad h1 h2
  have hrd := renderPhase_clean (pre ++ bad :: post) h3
  rw [runPhases34, hpr, hrd]
  simp only [if_pos, if_neg, Bool.false_eq_true, not_false_eq_true, ite_true, ite_false,
    List.append_nil]
  refine ⟨?_, ?_, ?_⟩
  · simp [prepareRenderIds_append, prepareRenderIds_prepCalls,
      prepareRenderIds_renderBlock, prepareRenderIds_cons, prepareRenderIds_nil]
  · simp [renderIds_append, renderIds_prepCalls, renderIds_renderBlock,
      renderIds_cons, renderIds_nil]
  · simp [errorReportCount_append, errorReportCount_prepCalls,
      errorReportCount_renderBlock, errorReportCount_cons, errorReportCount_nil]

/-- Witness for the amended C3 at the concrete batch `[pThrow, pOk]` (empty
prefix): only `pThrow` gets a `prepareRender` call, both parts get `render`
calls, and the sink receives one report. -/
theorem c3_amended_render_still_runs_witness :
    prepareRenderIds (runPhases34 ([] ++ pThrow :: [pOk])) =
      List.map VPart.id [] ++ [pThrow.id] ∧
    renderIds (runPhases34 ([] ++ pThrow :: [pOk])) =
      ([] ++ pThrow :: [pOk]).map VPart.id ∧
    errorReportCount (runPhases34 ([] ++ pThrow :: [pOk])) = 1 :=
  c3_amended_render_still_runs [] [pOk] pThrow (by decide) (by decide) (by decide)

/-- C9: when the text subsystem needs rendering, the view-part list returned
by `renderText` is the one recomputed after `viewLines.renderText` ran: a part
`p` that was clean before text rendering but is dirtied by it
(`p.id ∈ textRenderDirties`) appears — now dirty — in the returned list, the
very list later handed to the `prepareRender` and `render` phases. -/
theorem c9_recompute_after_text_render (v : ViewState) (p : VPart)
    (hp : p ∈ v.viewParts) (hflag : p.shouldRenderFlag = false)
    (hdirty : p.id ∈ v.textRenderDirties)
    (hvl : v.viewLinesShould = true) (hconn : v.domNodeConnected = true) :
    viewRenderText v = some (getViewPartsToRender (applyTextDirties v)) ∧
    { p with shouldRenderFlag := true } ∈ getViewPartsToRender (applyTextDirties v) ∧
    (View.flushAccumulatedAndRenderNow v).2 =
      [VEvent.prepareRenderTextPhase, VEvent.renderTextPhase] ++
        runPhases34 (getViewPartsToRender (applyTextDirties v)) := by
  have h1 : viewRenderText v = some (getViewPartsToRender (applyTextDirties v)) := by
    simp [viewRenderText, hconn, hvl]
  have h2 : { p with shouldRenderFlag := true } ∈ getViewPartsToRender (applyTextDirties v) := by
    refine List.mem_filter.mpr ⟨?_, rfl⟩
    refine List.mem_map.mpr ⟨p, hp, ?_⟩
    simp [hdirty]
  have hvrt : viewRenderText { v with shouldRecomputeGlyphMarginLanes := false } =
      some (getViewPartsToRender (applyTextDirties v)) := by
    simpa [viewRenderText, applyTextDirties, getViewPartsToRender, hconn, hvl] using h1
  exact ⟨h1, h2, by simp [View.flushAccumulatedAndRenderNow, hvrt]⟩

/-- A view whose only part (id 5) is clean but gets dirtied by text
rendering. -/
def vTextDirty : ViewState :=
  { disposed := false, renderAnimationFrame := none, domNodeConnected := true,
    viewLinesShould := true, viewParts := [⟨5, false, false, false⟩],
    textRenderDirties := [5], shouldRecomputeGlyphMarginLanes := false }

/-- Witness for C9 at the concrete view `vTextDirty`: part 5, clean before
text rendering, is in the recomputed list with its flag set. -/
theorem c9_recompute_after_text_render_witness :
    viewRenderText vTextDirty =
      some (getViewPartsToRender (applyTextDirties vTextDirty)) ∧
    { (⟨5, false, false, false⟩ : VPart) with shouldRenderFlag := true } ∈
      getViewPartsToRender (applyTextDirties vTextDirty) ∧
    (View.flushAccumulatedAndRenderNow vTextDirty).2 =
      [VEvent.prepareRenderTextPhase, VEvent.renderTextPhase] ++
        runPhases34 (getViewPartsToRender (applyTextDirties vTextDirty)) :=
  c9_recompute_after_text_render vTextDirty ⟨5, false, false, false⟩
    (by decide) (by decide) (by decide) (by decide) (by decide)
